import Mathlib

/-!
Verification development for the GridDFS repository (a minimal distributed
file system: a NameNode owning file/block/location/session metadata, DataNodes
with a local storage-admission policy, and a client that splits and
reassembles files by blocks).

The definitions below are shallow embeddings of the Python source:

* `src/namenode/services/confirmation_handler.py` — storage-confirmation and
  heartbeat handling;
* `src/namenode/services/block_service.py` — upload-session progress updates;
* `src/namenode/services/file_service.py` — upload planning, listing,
  deletion, download planning;
* `src/datanode/storage_policy.py` and `src/datanode/worker.py` — the
  storage-admission policy and the store-block handler;
* `src/client/client.py` — the client download path (`get_file`/`get_block`).

Database rows become Lean structures, tables become lists (SQLAlchemy
`query(...).first()` becomes `List.find?`, in-place mutation of the first
matching row becomes `updateFirst`, `db.add` appends). `datetime.utcnow()`
becomes an explicit `now : Nat` parameter. SHA-256 is kept as an opaque
parameter `hashFn : List Nat → String` (hex digest of a byte list); all
claims concern the comparison logic, never the digest function itself.
Base64 transport encoding is elided: messages carry the raw byte list.
Python floats in the admission policy are modelled as rationals.
-/

namespace GridDFS

/-- Replace the first element of a list satisfying `p` by its image under
`f`. This models SQLAlchemy's pattern of fetching `query(...).first()` and
mutating the returned row in place. -/
def updateFirst (p : α → Bool) (f : α → α) : List α → List α
  | [] => []
  | x :: xs => if p x then f x :: xs else x :: updateFirst p f xs

/-- Remove the first element of a list satisfying `p`; models
`db.delete(row)` for a row obtained with `query(...).first()`. -/
def removeFirst (p : α → Bool) : List α → List α
  | [] => []
  | x :: xs => if p x then xs else x :: removeFirst p xs

/-- Read a byte list in chunks of `blockSize` bytes, `n` reads in total;
models the loop `for i in range(total_blocks): f.read(self.block_size)` in
`FileService.calculate_blocks_info`. -/
def chunkList (blockSize : Nat) : Nat → List Nat → List (List Nat)
  | 0, _ => []
  | n + 1, content => content.take blockSize :: chunkList blockSize n (content.drop blockSize)

/- ---------------- NameNode metadata model (src/namenode/models.py) ------- -/

/-- Row of the `files` table. -/
structure FileRec where
  id : Nat
  filename : String
  file_path : String
  user_id : Nat
  file_size : Nat
  file_hash : String
  deriving Repr, DecidableEq

/-- Row of the `blocks` table. -/
structure BlockRec where
  block_id : String
  file_id : Nat
  block_index : Nat
  block_size : Nat
  block_hash : String
  deriving Repr, DecidableEq

/-- Row of the `block_locations` table. -/
structure LocationRec where
  block_id : String
  datanode_id : String
  status : String
  storage_path : String
  deriving Repr, DecidableEq

/-- Row of the `datanodes` table; `last_heartbeat` is seconds on the
coordinator's own clock. -/
structure NodeRec where
  node_id : String
  host : String
  port : Nat
  status : String
  last_heartbeat : Nat
  storage_used : Nat
  storage_capacity : Nat
  deriving Repr, DecidableEq

/-- Row of the `upload_sessions` table. -/
structure SessionRec where
  upload_id : String
  user_id : Nat
  file_path : String
  total_blocks : Nat
  completed_blocks : Nat
  status : String
  deriving Repr, DecidableEq

/-- The whole NameNode metadata store. -/
structure GridState where
  files : List FileRec
  blocks : List BlockRec
  locations : List LocationRec
  nodes : List NodeRec
  sessions : List SessionRec
  deriving Repr, DecidableEq

/-- The `storage_confirmed` message (shared/models.py
`StorageConfirmationMessage`). -/
structure ConfirmationMsg where
  block_id : String
  datanode_id : String
  storage_path : String
  status : String
  deriving Repr, DecidableEq

/-- The `heartbeat` message (shared/models.py `HeartbeatMessage`). -/
structure HeartbeatMsg where
  datanode_id : String
  status : String
  storage_used : Nat
  storage_capacity : Nat
  deriving Repr, DecidableEq

/- ---------------- NameNode services --------------------------------------- -/

/-- Default `Config.HEARTBEAT_INTERVAL` (seconds), src/shared/config.py. -/
def heartbeatInterval : Nat := 30

/-- Default `Config.BLOCK_SIZE` (bytes), src/shared/config.py. -/
def blockSizeDefault : Nat := 67108864

/-- Default `Config.MAX_UPLOAD_SIZE` (bytes), src/shared/config.py; the
constant is defined in the configuration but consulted nowhere else in the
source. -/
def maxUploadSize : Nat := 10737418240

/-- The confirmed-block count computed by
`ConfirmationHandler._update_upload_progress_from_block`:
`db.query(DBBlockLocation).join(DBBlock).filter(DBBlock.file_id == file.id,
DBBlockLocation.status == "active").count()`. Note that this counts
location *rows*, not distinct block ids. -/
def countConfirmedLocations (s : GridState) (fid : Nat) : Nat :=
  (s.locations.filter (fun l =>
    l.status == "active" && s.blocks.any (fun b => b.block_id == l.block_id && b.file_id == fid))).length

/-- The spec-side quantity of invariant I5: the number of *distinct*
block-ids of the file having at least one active confirmed location. Used
only to state divergences; the source never computes it. -/
def distinctConfirmedBlocks (s : GridState) (fid : Nat) : Nat :=
  ((s.blocks.filter (fun b =>
    b.file_id == fid && s.locations.any (fun l => l.block_id == b.block_id && l.status == "active"))).map
      (fun b => b.block_id)).dedup.length

/-- The per-row mutation of `BlockService.update_upload_progress`: overwrite
`completed_blocks` with the given count and flip the status to `completed`
when the count reaches `total_blocks`. -/
def sessionUpdateFn (completedBlocks : Nat) (t : SessionRec) : SessionRec :=
  { t with
    completed_blocks := completedBlocks,
    status := if completedBlocks ≥ t.total_blocks then "completed" else t.status }

/-- `BlockService.update_upload_progress`: look up the session by
`upload_id` and apply `sessionUpdateFn` to it. -/
def updateUploadProgress (s : GridState) (uploadId : String) (completedBlocks : Nat) : GridState :=
  match s.sessions.find? (fun t => t.upload_id == uploadId) with
  | none => s
  | some _ =>
    let upd := sessionUpdateFn completedBlocks
    { s with sessions := updateFirst (fun t => t.upload_id == uploadId) upd s.sessions }

/-- The session query of `_update_upload_progress_from_block`: the first
*pending* session for the file's `(file_path, user_id)`. -/
def pendingSessionMatch (userId : Nat) (filePath : String) (t : SessionRec) : Bool :=
  t.file_path == filePath && t.user_id == userId && t.status == "pending"

/-- `ConfirmationHandler._update_upload_progress_from_block`: find the block,
its file, the first pending session for that file's `(file_path, user_id)`,
recount confirmed locations and delegate to `updateUploadProgress`. -/
def updateUploadProgressFromBlock (s : GridState) (blockId : String) : GridState :=
  match s.blocks.find? (fun b => b.block_id == blockId) with
  | none => s
  | some b =>
    match s.files.find? (fun f => f.id == b.file_id) with
    | none => s
    | some f =>
      match s.sessions.find? (pendingSessionMatch f.user_id f.file_path) with
      | none => s
      | some t => updateUploadProgress s t.upload_id (countConfirmedLocations s f.id)

/-- The effect of `_update_upload_progress_from_block` on the session table
alone, as a list transformation (used to state and prove properties of the
handler; provably the sessions component of the handler's result). -/
def progressSessions (userId : Nat) (filePath : String) (cnt : Nat)
    (l : List SessionRec) : List SessionRec :=
  match l.find? (pendingSessionMatch userId filePath) with
  | none => l
  | some t0 =>
    match l.find? (fun t => t.upload_id == t0.upload_id) with
    | none => l
    | some _ => updateFirst (fun t => t.upload_id == t0.upload_id) (sessionUpdateFn cnt) l

/-- `ConfirmationHandler._handle_storage_confirmation`: on `success`, insert
a Location for `(block_id, datanode_id)` unless one exists, then update the
owning session's progress; confirmations with any other status only log. -/
def handleStorageConfirmation (s : GridState) (c : ConfirmationMsg) : GridState :=
  if c.status == "success" then
    let s1 :=
      if s.locations.any (fun l => l.block_id == c.block_id && l.datanode_id == c.datanode_id) then s
      else { s with locations :=
        s.locations ++ [{ block_id := c.block_id, datanode_id := c.datanode_id,
                          status := "active", storage_path := c.storage_path }] }
    updateUploadProgressFromBlock s1 c.block_id
  else s

/-- `BlockService.mark_upload_failed`: set the session's status to `failed`
unconditionally (no check of the current status). -/
def markUploadFailed (s : GridState) (uploadId : String) : GridState :=
  match s.sessions.find? (fun t => t.upload_id == uploadId) with
  | none => s
  | some _ =>
    let upd := fun (t : SessionRec) => { t with status := "failed" }
    { s with sessions := updateFirst (fun t => t.upload_id == uploadId) upd s.sessions }

/-- `ConfirmationHandler._handle_heartbeat`: upsert the DataNode row; the
stored status is whatever the message reported, `last_heartbeat` is the
coordinator's own clock (`datetime.utcnow()`, here `now`). A previously
unknown node is registered with the default address. -/
def handleHeartbeat (s : GridState) (m : HeartbeatMsg) (now : Nat) : GridState :=
  match s.nodes.find? (fun n => n.node_id == m.datanode_id) with
  | some _ =>
    let upd := fun (n : NodeRec) =>
      { n with status := m.status, storage_used := m.storage_used,
               storage_capacity := m.storage_capacity, last_heartbeat := now }
    { s with nodes := updateFirst (fun n => n.node_id == m.datanode_id) upd s.nodes }
  | none =>
    { s with nodes := s.nodes ++
        [{ node_id := m.datanode_id, host := "localhost", port := 5672, status := m.status,
           last_heartbeat := now, storage_used := m.storage_used,
           storage_capacity := m.storage_capacity }] }

/-- `FileService.get_file_info`: the file for `(user_id, file_path)`. -/
def getFileInfo (s : GridState) (userId : Nat) (filePath : String) : Option FileRec :=
  s.files.find? (fun f => f.user_id == userId && f.file_path == filePath)

/-- Insert a file into a list sorted by `file_path`; together with
`sortByPath` this models the query's `order_by(DBFile.file_path)`. -/
def insertByPath (f : FileRec) : List FileRec → List FileRec
  | [] => [f]
  | x :: xs => if f.file_path ≤ x.file_path then f :: x :: xs else x :: insertByPath f xs

/-- Sort files by `file_path` (insertion sort). -/
def sortByPath : List FileRec → List FileRec
  | [] => []
  | x :: xs => insertByPath x (sortByPath xs)

/-- `FileService.list_files`: the caller's files, filtered by the path
`LIKE "{path_prefix}%"` pattern unless the path argument is the root, ordered
by `file_path`. -/
def listFiles (s : GridState) (userId : Nat) (pathPre : String) : List FileRec :=
  sortByPath ((s.files.filter (fun f => f.user_id == userId)).filter
    (fun f => pathPre == "/" || pathPre.isPrefixOf f.file_path))

/-- `FileService.delete_file`: find the caller's file; if present, delete it
and cascade to its blocks and their locations (the SQLAlchemy relationships
carry `cascade="all, delete-orphan"` and the foreign keys `ondelete="CASCADE"`).
Returns whether a file was deleted. -/
def deleteFile (s : GridState) (userId : Nat) (filePath : String) : Bool × GridState :=
  match s.files.find? (fun f => f.user_id == userId && f.file_path == filePath) with
  | none => (false, s)
  | some f =>
    let deadBlockIds := (s.blocks.filter (fun b => b.file_id == f.id)).map (fun b => b.block_id)
    (true,
      { s with
        files := removeFirst (fun g => g.user_id == userId && g.file_path == filePath) s.files,
        blocks := s.blocks.filter (fun b => !(b.file_id == f.id)),
        locations := s.locations.filter (fun l => !(deadBlockIds.contains l.block_id)) })

/-- One block entry of a download plan. -/
structure PlanBlock where
  block_id : String
  block_index : Nat
  block_size : Nat
  block_hash : String
  locations : List (String × String)
  deriving Repr, DecidableEq

/-- A download plan (shared/models.py `DownloadPlanResponse`). -/
structure DownloadPlan where
  file : FileRec
  blocks : List PlanBlock
  deriving Repr, DecidableEq

/-- Insert a block into a list sorted by `block_index`; together with
`sortByIndex` this models `order_by(DBBlock.block_index)`. -/
def insertByIndex (b : BlockRec) : List BlockRec → List BlockRec
  | [] => [b]
  | x :: xs => if b.block_index ≤ x.block_index then b :: x :: xs else x :: insertByIndex b xs

/-- Sort blocks by `block_index` (insertion sort). -/
def sortByIndex : List BlockRec → List BlockRec
  | [] => []
  | x :: xs => insertByIndex x (sortByIndex xs)

/-- `FileService.get_download_plan`: resolve the caller's file, list its
blocks in index order, and attach to each block the locations whose own
`status` is `active`. No other filtering is applied: the query touches only
`block_locations.status`, never the `datanodes` table. -/
def getDownloadPlan (s : GridState) (userId : Nat) (filePath : String) : Option DownloadPlan :=
  match getFileInfo s userId filePath with
  | none => none
  | some f =>
    some
      { file := f,
        blocks := (sortByIndex (s.blocks.filter (fun b => b.file_id == f.id))).map (fun b =>
          { block_id := b.block_id, block_index := b.block_index, block_size := b.block_size,
            block_hash := b.block_hash,
            locations := (s.locations.filter (fun l =>
                l.block_id == b.block_id && l.status == "active")).map
              (fun l => (l.datanode_id, l.storage_path)) }) }

/-- One entry of `FileService.calculate_blocks_info`. -/
structure BlockInfo where
  block_id : String
  block_index : Nat
  block_size : Nat
  block_hash : String
  block_data : List Nat
  deriving Repr, DecidableEq

/-- `FileService.calculate_blocks_info`: split the file content into
`ceil(size / block_size)` chunks of `block_size` bytes (the final read may be
short), recording for each its index, length, digest and freshly minted id
(the nanoid generator is modelled by the supplied id list). -/
def calculateBlocksInfo (hashFn : List Nat → String) (blockIds : List String)
    (content : List Nat) (blockSize : Nat) : List BlockInfo :=
  let total := (content.length + blockSize - 1) / blockSize
  (chunkList blockSize total content).enum.map (fun p =>
    { block_id := blockIds.getD p.1 "", block_index := p.1, block_size := p.2.length,
      block_hash := hashFn p.2, block_data := p.2 })

/-- `FileService.create_upload_session`: reject only a `(user_id, file_path)`
collision (`ValueError`, surfaced as `AlreadyExists`); otherwise commit a
pending session, the file row, and one block row per chunk. There is no
validation of the file size. `fileId` stands for the id the database assigns
to the new file row, `uploadId` for the generated nanoid. -/
def createUploadSession (hashFn : List Nat → String) (s : GridState) (userId : Nat)
    (filePath : String) (filename : String) (content : List Nat) (blockSize : Nat)
    (blockIds : List String) (uploadId : String) (fileId : Nat) :
    Except String (GridState × List BlockInfo) :=
  if s.files.any (fun f => f.user_id == userId && f.file_path == filePath) then
    Except.error "already exists"
  else
    let fileSize := content.length
    let blocksInfo := calculateBlocksInfo hashFn blockIds content blockSize
    let totalBlocks := blocksInfo.length
    let s1 :=
      { s with
        sessions := s.sessions ++
          [{ upload_id := uploadId, user_id := userId, file_path := filePath,
             total_blocks := totalBlocks, completed_blocks := 0, status := "pending" }],
        files := s.files ++
          [{ id := fileId, filename := filename, file_path := filePath, user_id := userId,
             file_size := fileSize, file_hash := hashFn content }],
        blocks := s.blocks ++ blocksInfo.map (fun bi =>
          { block_id := bi.block_id, file_id := fileId, block_index := bi.block_index,
            block_size := bi.block_size, block_hash := bi.block_hash }) }
    Except.ok (s1, blocksInfo)

/- ---------------- DataNode storage policy (src/datanode/storage_policy.py) -/

/-- The filesystem facts `StoragePolicy` reads: which block ids exist under
`storage_root` (`os.path.exists`), the walked total of file sizes
(`get_storage_used_ratio`), the filesystem's reported free bytes
(`os.statvfs`: `f_bavail * f_frsize`), and the configured
`STORAGE_CAPACITY`. -/
structure PolicyEnv where
  present : List String
  usedBytes : Nat
  fsAvailable : Nat
  capacity : Nat
  deriving Repr, DecidableEq

/-- `StoragePolicy.has_sufficient_space`: the filesystem's available bytes
must cover the block plus the minimum free buffer
`capacity * min_free_space_ratio` with `min_free_space_ratio = 0.1`. -/
def hasSufficientSpace (env : PolicyEnv) (requiredSize : Nat) : Bool :=
  decide ((requiredSize : ℚ) + (env.capacity : ℚ) * (1 / 10) ≤ (env.fsAvailable : ℚ))

/-- `StoragePolicy.get_storage_used_ratio`: `min(used / capacity, 1.0)`; the
surrounding `except` handler returns `1.0` on any error, in particular on the
division by a zero capacity. -/
def storageUsedRatio (env : PolicyEnv) : ℚ :=
  if env.capacity = 0 then 1 else min ((env.usedBytes : ℚ) / (env.capacity : ℚ)) 1

/-- `StoragePolicy.should_store_block` with the uniform draw
`random.random()` passed in as `r`: accept a block already present; refuse
when space is insufficient; otherwise accept iff
`r < storage_probability * (1 - used_ratio)` with `storage_probability = 0.8`. -/
def shouldStoreBlock (env : PolicyEnv) (blockId : String) (blockSize : Nat) (r : ℚ) : Bool :=
  if env.present.contains blockId then true
  else if !hasSufficientSpace env blockSize then false
  else decide (r < (4 / 5) * (1 - storageUsedRatio env))

/- ---------------- DataNode worker (src/datanode/worker.py) ---------------- -/

/-- The `store_block` message (shared/models.py `StoreBlockMessage`), with
`block_data` already base64-decoded to a byte list. -/
structure StoreMsg where
  block_id : String
  block_data : List Nat
  block_hash : String
  block_size : Nat
  deriving Repr, DecidableEq

/-- A storage confirmation as the worker emits it
(`DataNodeWorker._send_storage_confirmation`). -/
structure ConfOut where
  block_id : String
  status : String
  storage_path : String
  deriving Repr, DecidableEq

/-- A DataNode's local state: the policy's view of the filesystem plus the
stored block contents (`storage_root/<block_id>`). -/
structure NodeState where
  env : PolicyEnv
  store : List (String × List Nat)
  storageRoot : String
  deriving Repr, DecidableEq

/-- `DataNodeWorker._handle_store_block`: consult the admission policy first
(returning silently — with no confirmation at all — when it declines); then
recompute the hash and confirm `error` on a mismatch without writing;
confirm `success` without rewriting when the block already exists; re-check
space (confirming `insufficient_space`); otherwise write the block and
confirm `success` with the final path. -/
def handleStoreBlock (hashFn : List Nat → String) (st : NodeState) (msg : StoreMsg) (r : ℚ) :
    NodeState × Option ConfOut :=
  if !shouldStoreBlock st.env msg.block_id msg.block_size r then
    (st, none)
  else if hashFn msg.block_data ≠ msg.block_hash then
    (st, some { block_id := msg.block_id, status := "error", storage_path := "" })
  else
    let blockPath := st.storageRoot ++ "/" ++ msg.block_id
    if st.env.present.contains msg.block_id then
      (st, some { block_id := msg.block_id, status := "success", storage_path := blockPath })
    else if !hasSufficientSpace st.env msg.block_size then
      (st, some { block_id := msg.block_id, status := "insufficient_space", storage_path := "" })
    else
      ({ st with
          env := { st.env with present := st.env.present ++ [msg.block_id] },
          store := st.store ++ [(msg.block_id, msg.block_data)] },
        some { block_id := msg.block_id, status := "success", storage_path := blockPath })

/- ---------------- Client download path (src/client/client.py) ------------- -/

/-- What a gRPC `GetBlock` call can come back with: a transport-level
failure (`grpc.RpcError`) or a reply carrying a status string and bytes. -/
inductive BlockReply where
  | rpcError : BlockReply
  | reply : String → List Nat → BlockReply
  deriving Repr, DecidableEq

/-- The network as the client sees it: replies keyed by
`(host, port, block_id)`. -/
def Network : Type := String → String → String → BlockReply

/-- One entry of the metadata the NameNode returns for a download
(`resp["block_location"]["blocks"]`): a block id and the single DataNode
address holding it. -/
structure Assignment where
  id : String
  host : String
  port : String
  deriving Repr, DecidableEq

/-- `get_block`: issue the request; return the bytes when the reply status
is `"OK"`, and `None` on any other status or on an `RpcError`. The bytes
are returned as received — nothing is hashed. -/
def clientGetBlock (net : Network) (host port blockId : String) : Option (List Nat) :=
  match net host port blockId with
  | BlockReply.rpcError => none
  | BlockReply.reply st data => if st == "OK" then some data else none

/-- `get_file`: iterate the assignments in plan order; the reply is kept
with `if data:`, Python truthiness, so a block counts as failed both when
`get_block` returned `None` and when it returned an empty `"OK"` payload
(`b""` is falsy). Accepted bytes are appended to the output file; any failed
block clears the `all_ok` flag and is skipped, the remaining blocks are
still fetched. No hash is checked, no exception is raised; the function
returns the written bytes and the flag. (The `HOST_MAP` container-name
rewriting is elided: assignments carry the final address.) -/
def clientGetFile (net : Network) (assignments : List Assignment) : List Nat × Bool :=
  assignments.foldl
    (fun acc a =>
      match clientGetBlock net a.host a.port a.id with
      | some d => if d.isEmpty then (acc.1, false) else (acc.1 ++ d, acc.2)
      | none => (acc.1, false))
    ([], true)

/-- The bytes `get_file` actually accepts for one assignment: the payload
when the request came back with status `"OK"` and a non-empty body (the
`if data:` truthiness test), and nothing otherwise. Used to state the
characterization of the download loop. -/
def acceptedBlock (net : Network) (a : Assignment) : Option (List Nat) :=
  match clientGetBlock net a.host a.port a.id with
  | some d => if d.isEmpty then none else some d
  | none => none

/- ======================= helper lemmas ==================================== -/

theorem updateFirst_forall2 (p : α → Bool) (f : α → α) :
    ∀ l : List α,
      List.Forall₂ (fun t t' => t' = t ∨ (t ∈ l ∧ p t = true ∧ t' = f t)) l (updateFirst p f l) := by
  intro l
  induction l with
  | nil => exact List.Forall₂.nil
  | cons x xs ih =>
    by_cases hx : p x
    · simp only [updateFirst, hx, if_true]
      exact List.Forall₂.cons (Or.inr ⟨List.mem_cons_self x xs, hx, rfl⟩)
        ((List.forall₂_same.mpr (fun t _ => Or.inl rfl)))
    · simp only [updateFirst, hx, if_false]
      exact List.Forall₂.cons (Or.inl rfl)
        (ih.imp (fun {t t'} h => h.imp id (fun h2 => ⟨List.mem_cons_of_mem x h2.1, h2.2⟩)))

theorem updateFirst_map_eq (p : α → Bool) (f : α → α) (g : α → β)
    (hg : ∀ x, g (f x) = g x) : ∀ l : List α, (updateFirst p f l).map g = l.map g := by
  intro l
  induction l with
  | nil => rfl
  | cons x xs ih =>
    by_cases hx : p x
    · simp [updateFirst, hx, hg]
    · simp [updateFirst, hx, ih]

theorem removeFirst_subset (p : α → Bool) : ∀ l : List α, ∀ x ∈ removeFirst p l, x ∈ l := by
  intro l
  induction l with
  | nil => simp [removeFirst]
  | cons y ys ih =>
    intro x h
    cases hy : p y
    · simp only [removeFirst, hy] at h
      simp only [Bool.false_eq_true, if_false, List.mem_cons] at h
      rcases h with h | h
      · exact h ▸ List.mem_cons_self y ys
      · exact List.mem_cons_of_mem y (ih x h)
    · simp only [removeFirst, hy, if_true] at h
      exact List.mem_cons_of_mem y h

theorem mem_removeFirst (p : α → Bool) :
    ∀ l : List α, ∀ x ∈ l, p x = false → x ∈ removeFirst p l := by
  intro l
  induction l with
  | nil => simp
  | cons y ys ih =>
    intro x hx hpx
    cases hy : p y
    · simp only [removeFirst, hy]
      simp only [Bool.false_eq_true, if_false, List.mem_cons]
      rcases List.mem_cons.mp hx with h | h
      · exact Or.inl h
      · exact Or.inr (ih x h hpx)
    · simp only [removeFirst, hy, if_true]
      rcases List.mem_cons.mp hx with h | h
      · rw [h] at hpx
        rw [hpx] at hy
        exact absurd hy (by simp)
      · exact h

theorem chunkList_length (blockSize : Nat) :
    ∀ (n : Nat) (content : List Nat), (chunkList blockSize n content).length = n := by
  intro n
  induction n with
  | zero => intro content; rfl
  | succ m ih => intro content; simp [chunkList, ih]

theorem chunkList_sizes (blockSize : Nat) :
    ∀ (n : Nat) (content : List Nat), n * blockSize < content.length →
      content.length ≤ (n + 1) * blockSize →
      (chunkList blockSize (n + 1) content).map List.length =
        List.replicate n blockSize ++ [content.length - n * blockSize] := by
  intro n
  induction n with
  | zero =>
    intro content h1 h2
    have e0 : (0 + 1) * blockSize = blockSize := by ring
    simp only [chunkList, List.map]
    have ht : (content.take blockSize).length = content.length := by
      simp only [List.length_take]
      omega
    simp [ht]
  | succ m ih =>
    intro content h1 h2
    have e0 : (m + 1) * blockSize = m * blockSize + blockSize := by ring
    have e1 : (m + 1 + 1) * blockSize = (m + 1) * blockSize + blockSize := by ring
    have hB : blockSize ≤ content.length := by omega
    have hlo : m * blockSize < (content.drop blockSize).length := by
      simp only [List.length_drop]
      omega
    have hhi : (content.drop blockSize).length ≤ (m + 1) * blockSize := by
      simp only [List.length_drop]
      omega
    have hh : (content.take blockSize).length = blockSize := by
      simp only [List.length_take]
      omega
    have htail := ih (content.drop blockSize) hlo hhi
    have hstep : chunkList blockSize (m + 1 + 1) content =
        content.take blockSize :: chunkList blockSize (m + 1) (content.drop blockSize) := rfl
    rw [hstep, List.map_cons, htail, hh]
    simp only [List.length_drop]
    have e2 : content.length - blockSize - m * blockSize =
        content.length - (m + 1) * blockSize := by omega
    rw [e2, List.replicate_succ]
    simp

theorem ceilDiv_facts (S B : Nat) (hS : 0 < S) (hB : 0 < B) :
    0 < (S + B - 1) / B ∧ S ≤ (S + B - 1) / B * B ∧ ((S + B - 1) / B - 1) * B < S := by
  have hdm := Nat.div_add_mod (S + B - 1) B
  have hmod : (S + B - 1) % B < B := Nat.mod_lt _ hB
  rcases hq : (S + B - 1) / B with _ | q
  · rw [hq] at hdm
    omega
  · rw [hq] at hdm
    have e1 : B * (q + 1) = B * q + B := by ring
    have e2 : (q + 1) * B = B * q + B := by ring
    have e3 : (q + 1 - 1) * B = B * q := by
      simp only [Nat.add_sub_cancel]
      ring
    rw [e2, e3]
    generalize B * q = x at e1 hdm ⊢
    omega

/- ======================= C8: block plan density =========================== -/

/-- C8 — for every uploaded file of size `S > 0` with configured block size
`B > 0`, `calculate_blocks_info` produces exactly `⌈S/B⌉` blocks whose
indices are the dense sequence `0, 1, …, ⌈S/B⌉ − 1`, whose sizes are `B` for
every block except the last (which gets the remainder `S − (⌈S/B⌉−1)·B`),
which sum to `S`, and each of which is at most `B` bytes. -/
theorem upload_plan_blocks_dense (hashFn : List Nat → String) (blockIds : List String)
    (content : List Nat) (B : Nat) (hS : 0 < content.length) (hB : 0 < B) :
    (calculateBlocksInfo hashFn blockIds content B).length = (content.length + B - 1) / B ∧
    (calculateBlocksInfo hashFn blockIds content B).map (fun bi => bi.block_index) =
      List.range ((content.length + B - 1) / B) ∧
    (calculateBlocksInfo hashFn blockIds content B).map (fun bi => bi.block_size) =
      List.replicate ((content.length + B - 1) / B - 1) B ++
        [content.length - ((content.length + B - 1) / B - 1) * B] ∧
    ((calculateBlocksInfo hashFn blockIds content B).map (fun bi => bi.block_size)).sum =
      content.length ∧
    ∀ bi ∈ calculateBlocksInfo hashFn blockIds content B, bi.block_size ≤ B := by
  obtain ⟨hn0, hle, hlt⟩ := ceilDiv_facts content.length B hS hB
  have hlen : (calculateBlocksInfo hashFn blockIds content B).length =
      (content.length + B - 1) / B := by
    simp [calculateBlocksInfo, List.enum_length, chunkList_length]
  have hidx : (calculateBlocksInfo hashFn blockIds content B).map (fun bi => bi.block_index) =
      List.range ((content.length + B - 1) / B) := by
    simp only [calculateBlocksInfo, List.map_map]
    have hcomp : ((fun bi : BlockInfo => bi.block_index) ∘ (fun p : Nat × List Nat =>
        ({ block_id := blockIds.getD p.1 "", block_index := p.1, block_size := p.2.length,
           block_hash := hashFn p.2, block_data := p.2 } : BlockInfo))) = Prod.fst := rfl
    rw [hcomp, List.enum_map_fst, chunkList_length]
  have hsizes : (calculateBlocksInfo hashFn blockIds content B).map (fun bi => bi.block_size) =
      List.replicate ((content.length + B - 1) / B - 1) B ++
        [content.length - ((content.length + B - 1) / B - 1) * B] := by
    have hms : (calculateBlocksInfo hashFn blockIds content B).map (fun bi => bi.block_size) =
        (chunkList B ((content.length + B - 1) / B) content).map List.length := by
      simp only [calculateBlocksInfo, List.map_map]
      have hcomp : ((fun bi : BlockInfo => bi.block_size) ∘ (fun p : Nat × List Nat =>
          ({ block_id := blockIds.getD p.1 "", block_index := p.1, block_size := p.2.length,
             block_hash := hashFn p.2, block_data := p.2 } : BlockInfo))) =
          (List.length ∘ Prod.snd) := rfl
      rw [hcomp, ← List.map_map, List.enum_map_snd]
    obtain ⟨m, hm⟩ : ∃ m, (content.length + B - 1) / B = m + 1 :=
      ⟨(content.length + B - 1) / B - 1, by omega⟩
    rw [hms, hm]
    have h1 : m * B < content.length := by
      have : ((content.length + B - 1) / B - 1) = m := by omega
      rw [this] at hlt
      exact hlt
    have h2 : content.length ≤ (m + 1) * B := by
      rw [hm] at hle
      exact hle
    rw [chunkList_sizes B m content h1 h2]
    simp [hm]
  refine ⟨hlen, hidx, hsizes, ?_, ?_⟩
  · rw [hsizes]
    have e1 : ((content.length + B - 1) / B - 1) * B < content.length := hlt
    simp only [List.sum_append, List.sum_replicate, List.sum_cons, List.sum_nil, smul_eq_mul]
    generalize ((content.length + B - 1) / B - 1) * B = x at e1 ⊢
    omega
  · intro bi hbi
    have hmem : bi.block_size ∈
        (calculateBlocksInfo hashFn blockIds content B).map (fun b => b.block_size) :=
      List.mem_map_of_mem _ hbi
    rw [hsizes] at hmem
    rcases List.mem_append.mp hmem with h | h
    · have := List.eq_of_mem_replicate h
      omega
    · simp only [List.mem_singleton] at h
      have e2 : content.length ≤ ((content.length + B - 1) / B - 1) * B + B := by
        have e3 : (content.length + B - 1) / B * B =
            ((content.length + B - 1) / B - 1) * B + B := by
          have e4 : (content.length + B - 1) / B = ((content.length + B - 1) / B - 1) + 1 := by
            omega
          calc (content.length + B - 1) / B * B
              = (((content.length + B - 1) / B - 1) + 1) * B := by rw [← e4]
            _ = ((content.length + B - 1) / B - 1) * B + B := by ring
        rw [← e3]
        exact hle
      generalize ((content.length + B - 1) / B - 1) * B = x at h e2
      omega

/-- Witness for C8 at `content = [7, 7, 7]`, `B = 2`: two blocks, indices
`[0, 1]`, sizes `[2, 1]` summing to 3. -/
theorem upload_plan_blocks_dense_witness :
    (calculateBlocksInfo (fun _ => "h") ["i0", "i1"] [7, 7, 7] 2).length = 2 ∧
    (calculateBlocksInfo (fun _ => "h") ["i0", "i1"] [7, 7, 7] 2).map
      (fun bi => bi.block_index) = [0, 1] ∧
    ((calculateBlocksInfo (fun _ => "h") ["i0", "i1"] [7, 7, 7] 2).map
      (fun bi => bi.block_size)).sum = 3 := by
  obtain ⟨h1, h2, _, h4, _⟩ :=
    upload_plan_blocks_dense (fun _ => "h") ["i0", "i1"] [7, 7, 7] 2 (by decide) (by decide)
  exact ⟨h1, by simpa using h2, h4⟩

/- ======================= C4: storage-admission decision =================== -/

/-- C4 — the storage-admission decision for a block of size `s`: accept a
block already present; otherwise refuse when
`capacity − used − s < 0.10·capacity`; otherwise accept iff the uniform draw
satisfies `r < 0.8·(1 − used/capacity)`. Stated under the data-model reading
of the filesystem probes: the `statvfs` available bytes equal
`capacity − used` and the walked usage does not exceed the configured
capacity. -/
theorem storage_admission_decision (env : PolicyEnv) (blockId : String) (size : Nat) (r : ℚ)
    (hcap : 0 < env.capacity) (hused : env.usedBytes ≤ env.capacity)
    (hfs : (env.fsAvailable : ℚ) = (env.capacity : ℚ) - (env.usedBytes : ℚ)) :
    shouldStoreBlock env blockId size r = true ↔
      blockId ∈ env.present ∨
        (¬ ((env.capacity : ℚ) - (env.usedBytes : ℚ) - (size : ℚ) <
              (env.capacity : ℚ) / 10) ∧
          r < (4 / 5) * (1 - (env.usedBytes : ℚ) / (env.capacity : ℚ))) := by
  have hcapQ : (0 : ℚ) < (env.capacity : ℚ) := by exact_mod_cast hcap
  have hratio : storageUsedRatio env = (env.usedBytes : ℚ) / (env.capacity : ℚ) := by
    unfold storageUsedRatio
    rw [if_neg (by omega)]
    refine min_eq_left ?_
    rw [div_le_one hcapQ]
    exact_mod_cast hused
  have hspace : hasSufficientSpace env size = true ↔
      ¬ ((env.capacity : ℚ) - (env.usedBytes : ℚ) - (size : ℚ) < (env.capacity : ℚ) / 10) := by
    unfold hasSufficientSpace
    rw [decide_eq_true_iff, hfs]
    constructor
    · intro h
      intro hcon
      nlinarith
    · intro h
      nlinarith [not_lt.mp h]
  unfold shouldStoreBlock
  by_cases hpres : blockId ∈ env.present
  · rw [if_pos (List.elem_eq_true_of_mem hpres)]
    simp [hpres]
  · have hc : env.present.contains blockId = false := by
      rw [Bool.eq_false_iff]
      intro hcon
      exact hpres (List.mem_of_elem_eq_true hcon)
    rw [hc]
    simp only [Bool.false_eq_true, if_false]
    by_cases hsp : hasSufficientSpace env size = true
    · rw [hsp]
      simp only [Bool.not_true, Bool.false_eq_true, if_false, decide_eq_true_iff, hratio]
      constructor
      · intro h
        exact Or.inr ⟨hspace.mp hsp, h⟩
      · intro h
        rcases h with h | h
        · exact absurd h hpres
        · exact h.2
    · have hsp2 : hasSufficientSpace env size = false := by
        rw [Bool.eq_false_iff]; exact hsp
      rw [hsp2]
      simp only [Bool.not_false, if_true]
      constructor
      · intro h
        exact absurd h (by simp)
      · intro h
        rcases h with h | h
        · exact absurd h hpres
        · exact absurd (hspace.mpr h.1) hsp

/-- Witness for C4 at `capacity = 100`, `used = 20`, `fsAvailable = 80`,
block size 5, draw `r = 0`. -/
theorem storage_admission_decision_witness :
    ((0 : Nat) < 100 ∧ (20 : Nat) ≤ 100 ∧ ((80 : Nat) : ℚ) = (100 : ℚ) - (20 : ℚ)) ∧
    (shouldStoreBlock ⟨[], 20, 80, 100⟩ "b" 5 0 = true ↔
      "b" ∈ ([] : List String) ∨
        (¬ ((100 : ℚ) - (20 : ℚ) - (5 : ℚ) < (100 : ℚ) / 10) ∧
          (0 : ℚ) < (4 / 5) * (1 - (20 : ℚ) / (100 : ℚ)))) := by
  constructor
  · refine ⟨by norm_num, by norm_num, by norm_num⟩
  · have h := storage_admission_decision ⟨[], 20, 80, 100⟩ "b" 5 0 (by norm_num) (by norm_num)
      (by norm_num)
    exact_mod_cast h

/- ======================= C5: store-block hash mismatch ==================== -/

/-- C5 (amended) — a `store_block` message whose bytes hash differently from
the declared hash is never written to the store, and the node's state is
unchanged; however the `error` confirmation is sent only when the admission
policy accepted the block — when the policy declines, the worker returns
before the hash check and sends no confirmation at all. -/
theorem store_block_hash_mismatch_never_written (hashFn : List Nat → String)
    (st : NodeState) (msg : StoreMsg) (r : ℚ)
    (hmm : hashFn msg.block_data ≠ msg.block_hash) :
    (handleStoreBlock hashFn st msg r).1 = st ∧
    (handleStoreBlock hashFn st msg r).2 =
      (if shouldStoreBlock st.env msg.block_id msg.block_size r then
        some { block_id := msg.block_id, status := "error", storage_path := "" }
      else none) := by
  unfold handleStoreBlock
  by_cases hs : shouldStoreBlock st.env msg.block_id msg.block_size r = true
  · rw [hs]
    simp [hmm]
  · have hs2 : shouldStoreBlock st.env msg.block_id msg.block_size r = false := by
      rw [Bool.eq_false_iff]; exact hs
    rw [hs2]
    simp

/-- Witness for C5 at a node that already holds block `b` (so the policy
accepts) and a message whose bytes hash to `"A"` against declared hash
`"B"`. -/
theorem store_block_hash_mismatch_never_written_witness :
    ((fun _ : List Nat => "A") [1] ≠ "B") ∧
    ((handleStoreBlock (fun _ => "A") ⟨⟨["b"], 1, 100, 100⟩, [("b", [9])], "storage"⟩
        ⟨"b", [1], "B", 1⟩ 0).1 = ⟨⟨["b"], 1, 100, 100⟩, [("b", [9])], "storage"⟩ ∧
      (handleStoreBlock (fun _ => "A") ⟨⟨["b"], 1, 100, 100⟩, [("b", [9])], "storage"⟩
        ⟨"b", [1], "B", 1⟩ 0).2 =
        (if shouldStoreBlock ⟨["b"], 1, 100, 100⟩ "b" 1 0 then
          some { block_id := "b", status := "error", storage_path := "" }
        else none)) := by
  constructor
  · decide
  · exact store_block_hash_mismatch_never_written (fun _ => "A")
      ⟨⟨["b"], 1, 100, 100⟩, [("b", [9])], "storage"⟩ ⟨"b", [1], "B", 1⟩ 0 (by decide)

/-- C5 counterexample — a mismatched `store_block` message for which the
admission policy declines (the draw `r = 1` fails `r < 0.8·(1 − 0)`): the
worker sends *no* confirmation, not an `error` one, refuting the claim that
every mismatched message is answered with an `error` confirmation. -/
theorem store_block_mismatch_silent_decline_cex :
    ((fun _ : List Nat => "A") [1] ≠ "B") ∧
    handleStoreBlock (fun _ => "A") ⟨⟨[], 0, 100, 100⟩, [], "storage"⟩ ⟨"b", [1], "B", 1⟩ 1 =
      (⟨⟨[], 0, 100, 100⟩, [], "storage"⟩, none) := by
  constructor
  · decide
  · have hpol : shouldStoreBlock ⟨[], 0, 100, 100⟩ "b" 1 1 = false := by
      unfold shouldStoreBlock hasSufficientSpace storageUsedRatio
      norm_num
    unfold handleStoreBlock
    rw [hpol]
    rfl

/- ======================= C3: client download path ========================= -/

/-- C3 (amended) — the gRPC client's `get_file` performs no hash
verification and raises no exception: it writes, in plan order, exactly the
bytes of the blocks whose single assigned node answered `"OK"` with a
non-empty payload (Python's `if data:` — an empty reply counts as a failed
block), silently skipping failed blocks, and its `all_ok` flag is true iff
every block was accepted by that test. -/
theorem client_get_characterization (net : Network) (assignments : List Assignment) :
    (clientGetFile net assignments).1 =
      (assignments.filterMap (acceptedBlock net)).flatten ∧
    (clientGetFile net assignments).2 =
      assignments.all (fun a => (acceptedBlock net a).isSome) := by
  have hgo : ∀ (l : List Assignment) (acc : List Nat × Bool),
      l.foldl (fun acc a =>
        match clientGetBlock net a.host a.port a.id with
        | some d => if d.isEmpty then (acc.1, false) else (acc.1 ++ d, acc.2)
        | none => (acc.1, false)) acc =
      (acc.1 ++ (l.filterMap (acceptedBlock net)).flatten,
        acc.2 && l.all (fun a => (acceptedBlock net a).isSome)) := by
    intro l
    induction l with
    | nil => intro acc; simp
    | cons a l ih =>
      intro acc
      cases hb : clientGetBlock net a.host a.port a.id with
      | none =>
        have ha : acceptedBlock net a = none := by
          unfold acceptedBlock
          rw [hb]
        simp only [List.foldl_cons, hb, ih, ha, List.filterMap_cons, List.all_cons,
          Option.isSome_none, Bool.false_and, Bool.and_false]
      | some d =>
        cases hde : d.isEmpty with
        | true =>
          have ha : acceptedBlock net a = none := by
            unfold acceptedBlock
            rw [hb]
            show (if d.isEmpty = true then none else some d : Option (List Nat)) = none
            rw [hde]
            rfl
          simp only [List.foldl_cons, hb, hde, if_true, ih, ha, List.filterMap_cons,
            List.all_cons, Option.isSome_none, Bool.false_and, Bool.and_false]
        | false =>
          have ha : acceptedBlock net a = some d := by
            unfold acceptedBlock
            rw [hb]
            show (if d.isEmpty = true then none else some d : Option (List Nat)) = some d
            rw [hde]
            rfl
          simp only [List.foldl_cons, hb, hde, Bool.false_eq_true, if_false, ih, ha,
            List.filterMap_cons, List.all_cons, Option.isSome_some, Bool.true_and,
            List.flatten_cons, List.append_assoc]
  unfold clientGetFile
  rw [hgo]
  simp

/-- C3 counterexample — a node replies `"OK"` with bytes `[1, 2, 3]` whose
digest is `"H1"`, while the NameNode metadata records expected hash `"H2"`
for the block: the client accepts and writes the bytes anyway and reports
overall success, refuting the claim that accepted bytes always satisfy the
per-block hash. -/
theorem client_get_accepts_unverified_bytes_cex :
    clientGetFile (fun _ _ _ => BlockReply.reply "OK" [1, 2, 3])
      [{ id := "b1", host := "localhost", port := "50051" }] = ([1, 2, 3], true) ∧
    (GridState.blocks ⟨[⟨1, "a", "/a", 1, 3, "FH"⟩], [⟨"b1", 1, 0, 3, "H2"⟩], [], [], []⟩).map
      (fun b => (b.block_id, b.block_hash)) = [("b1", "H2")] ∧
    (fun _ : List Nat => "H1") [1, 2, 3] = "H1" ∧ "H1" ≠ "H2" := by
  refine ⟨rfl, rfl, rfl, by decide⟩

/- ======================= C9: upload size validation ======================= -/

/-- C9 counterexample — a zero-size upload request: `create_upload_session`
succeeds (no `InvalidInput`), committing a File row of size 0 and a pending
Upload Session with `total_blocks = 0`, refuting the claim that zero-size
requests fail with no metadata committed. -/
theorem create_upload_accepts_zero_size_cex :
    createUploadSession (fun _ => "h") ⟨[], [], [], [], []⟩ 1 "/a" "a" [] 64 [] "u1" 1 =
      Except.ok
        (⟨[⟨1, "a", "/a", 1, 0, "h"⟩], [], [], [], [⟨"u1", 1, "/a", 0, 0, "pending"⟩]⟩, []) := by
  rfl

/-- C9 (amended) — `create_upload_session` performs no size validation at
all: a zero-size request, and equally a request larger than the configured
`MAX_UPLOAD_SIZE` (which no code consults), succeeds whenever the
`(user_id, file_path)` pair is new, committing the File row and a pending
session. -/
theorem create_upload_no_size_validation (hashFn : List Nat → String) (s : GridState)
    (userId : Nat) (filePath filename : String) (content : List Nat) (blockSize : Nat)
    (blockIds : List String) (uploadId : String) (fileId : Nat)
    (hsize : content.length = 0 ∨ maxUploadSize < content.length)
    (hfree : s.files.any (fun f => f.user_id == userId && f.file_path == filePath) = false) :
    ∃ s1 infos,
      createUploadSession hashFn s userId filePath filename content blockSize blockIds
          uploadId fileId = Except.ok (s1, infos) ∧
      ({ id := fileId, filename := filename, file_path := filePath, user_id := userId,
         file_size := content.length, file_hash := hashFn content } : FileRec) ∈ s1.files ∧
      ({ upload_id := uploadId, user_id := userId, file_path := filePath,
         total_blocks := infos.length, completed_blocks := 0,
         status := "pending" } : SessionRec) ∈ s1.sessions := by
  unfold createUploadSession
  rw [hfree]
  simp only [Bool.false_eq_true, if_false]
  refine ⟨_, _, rfl, ?_, ?_⟩
  · simp
  · simp

/-- Witness for C9 (amended) at the empty store and the zero-size content. -/
theorem create_upload_no_size_validation_witness :
    (([] : List Nat).length = 0 ∨ maxUploadSize < ([] : List Nat).length) ∧
    (∃ s1 infos,
      createUploadSession (fun _ => "h") ⟨[], [], [], [], []⟩ 1 "/a" "a" [] 64 [] "u1" 1 =
        Except.ok (s1, infos) ∧
      ({ id := 1, filename := "a", file_path := "/a", user_id := 1,
         file_size := ([] : List Nat).length, file_hash := (fun _ : List Nat => "h") [] } :
        FileRec) ∈ s1.files ∧
      ({ upload_id := "u1", user_id := 1, file_path := "/a",
         total_blocks := infos.length, completed_blocks := 0,
         status := "pending" } : SessionRec) ∈ s1.sessions) := by
  refine ⟨Or.inl rfl, ?_⟩
  exact create_upload_no_size_validation (fun _ => "h") ⟨[], [], [], [], []⟩ 1 "/a" "a" [] 64
    [] "u1" 1 (Or.inl rfl) (by decide)

/- ======================= C2: download-plan liveness filter ================ -/

/-- C2 counterexample — a state in which block `b1` has active Locations on
`dn1` (whose stored status is `active` but whose `last_heartbeat` is 0 —
at any clock reading `now = 1000` it has been silent for longer than
`3·heartbeat_interval = 90` seconds) and on `dn2` (whose stored status is
`stale`): `get_download_plan` cites both, because it filters only on
`block_locations.status` and never consults the `datanodes` table or any
clock, refuting the claimed node-status and heartbeat-recency filters. -/
theorem download_plan_ignores_node_liveness_cex :
    (getDownloadPlan
        ⟨[⟨1, "a", "/a", 1, 5, "fh"⟩], [⟨"b1", 1, 0, 5, "bh"⟩],
          [⟨"b1", "dn1", "active", "/x"⟩, ⟨"b1", "dn2", "active", "/y"⟩],
          [⟨"dn1", "localhost", 5672, "active", 0, 0, 100⟩,
            ⟨"dn2", "localhost", 5672, "stale", 990, 0, 100⟩],
          []⟩
        1 "/a").map (fun p => p.blocks.map (fun b => b.locations)) =
      some [[("dn1", "/x"), ("dn2", "/y")]] ∧
    ("stale" : String) ≠ "active" ∧ 3 * heartbeatInterval < 1000 - 0 := by
  refine ⟨rfl, by decide, by decide⟩

/-- C2 (amended) — every Location cited by the download plan is an existing
Location row of the metadata store whose own `status` is `active` for the
cited block; no node-status or heartbeat-recency condition is applied. -/
theorem download_plan_locations_active_only (s : GridState) (userId : Nat) (filePath : String)
    (p : DownloadPlan) (hp : getDownloadPlan s userId filePath = some p) :
    ∀ b ∈ p.blocks, ∀ loc ∈ b.locations,
      ∃ l ∈ s.locations, l.block_id = b.block_id ∧ l.status = "active" ∧
        loc = (l.datanode_id, l.storage_path) := by
  unfold getDownloadPlan at hp
  cases hf : getFileInfo s userId filePath with
  | none => rw [hf] at hp; exact absurd hp (by simp)
  | some f =>
    rw [hf] at hp
    have hp2 := Option.some.inj hp
    intro b hb loc hloc
    rw [← hp2] at hb
    simp only at hb
    obtain ⟨b0, hb0, hbeq⟩ := List.mem_map.mp hb
    rw [← hbeq] at hloc
    simp only at hloc
    obtain ⟨l, hl, hleq⟩ := List.mem_map.mp hloc
    obtain ⟨hl1, hl2⟩ := List.mem_filter.mp hl
    simp only [Bool.and_eq_true, beq_iff_eq] at hl2
    refine ⟨l, hl1, ?_, hl2.2, hleq.symm⟩
    rw [← hbeq]
    exact hl2.1

/-- Witness for C2 (amended) at a one-file, one-block, one-location store. -/
theorem download_plan_locations_active_only_witness :
    (getDownloadPlan
        ⟨[⟨1, "a", "/a", 1, 5, "bh"⟩], [⟨"b1", 1, 0, 5, "h0"⟩],
          [⟨"b1", "dn1", "active", "/x"⟩], [], []⟩ 1 "/a" =
      some ⟨⟨1, "a", "/a", 1, 5, "bh"⟩, [⟨"b1", 0, 5, "h0", [("dn1", "/x")]⟩]⟩) ∧
    (∀ b ∈ (⟨⟨1, "a", "/a", 1, 5, "bh"⟩,
        [⟨"b1", 0, 5, "h0", [("dn1", "/x")]⟩]⟩ : DownloadPlan).blocks,
      ∀ loc ∈ b.locations,
        ∃ l ∈ [(⟨"b1", "dn1", "active", "/x"⟩ : LocationRec)],
          l.block_id = b.block_id ∧ l.status = "active" ∧
            loc = (l.datanode_id, l.storage_path)) := by
  constructor
  · rfl
  · exact download_plan_locations_active_only
      ⟨[⟨1, "a", "/a", 1, 5, "bh"⟩], [⟨"b1", 1, 0, 5, "h0"⟩],
        [⟨"b1", "dn1", "active", "/x"⟩], [], []⟩ 1 "/a"
      ⟨⟨1, "a", "/a", 1, 5, "bh"⟩, [⟨"b1", 0, 5, "h0", [("dn1", "/x")]⟩]⟩ (by rfl)

/- ======================= C10: per-principal scoping ======================= -/

theorem mem_insertByPath (f x : FileRec) :
    ∀ l : List FileRec, x ∈ insertByPath f l ↔ x = f ∨ x ∈ l := by
  intro l
  induction l with
  | nil => simp [insertByPath]
  | cons y ys ih =>
    by_cases h : f.file_path ≤ y.file_path
    · simp [insertByPath, h]
    · simp only [insertByPath, h, if_false, List.mem_cons, ih]
      tauto

theorem mem_sortByPath (x : FileRec) : ∀ l : List FileRec, x ∈ sortByPath l ↔ x ∈ l := by
  intro l
  induction l with
  | nil => simp [sortByPath]
  | cons y ys ih =>
    simp only [sortByPath, mem_insertByPath, List.mem_cons, ih]

/-- C10 — every metadata operation is scoped to the requesting principal:
`get_file_info`, `list_files` and `get_download_plan` return only files
whose `user_id` is the caller's, and `delete_file` removes no file of
another principal and leaves other principals' blocks and locations in
place (under the database's primary-key and unique constraints: distinct
file ids and distinct block ids). -/
theorem metadata_operations_user_scoped (s : GridState) (userId : Nat)
    (filePath pathPre : String)
    (hfid : (s.files.map (fun f => f.id)).Nodup)
    (hbid : (s.blocks.map (fun b => b.block_id)).Nodup) :
    (∀ fi, getFileInfo s userId filePath = some fi → fi.user_id = userId) ∧
    (∀ fi ∈ listFiles s userId pathPre, fi.user_id = userId) ∧
    (∀ p, getDownloadPlan s userId filePath = some p → p.file.user_id = userId) ∧
    (∀ g ∈ (deleteFile s userId filePath).2.files, g ∈ s.files) ∧
    (∀ g ∈ s.files, g.user_id ≠ userId →
      g ∈ (deleteFile s userId filePath).2.files ∧
      (∀ b ∈ s.blocks, b.file_id = g.id → b ∈ (deleteFile s userId filePath).2.blocks) ∧
      (∀ l ∈ s.locations,
        (∃ b ∈ s.blocks, b.block_id = l.block_id ∧ b.file_id = g.id) →
          l ∈ (deleteFile s userId filePath).2.locations)) := by
  have hinfo : ∀ fi, getFileInfo s userId filePath = some fi → fi.user_id = userId := by
    intro fi h
    have h2 := List.find?_some h
    simp only [Bool.and_eq_true, beq_iff_eq] at h2
    exact h2.1
  refine ⟨hinfo, ?_, ?_, ?_, ?_⟩
  · intro fi h
    unfold listFiles at h
    rw [mem_sortByPath] at h
    have h2 := (List.mem_filter.mp h).1
    have h3 := (List.mem_filter.mp h2).2
    simpa using h3
  · intro p hp
    unfold getDownloadPlan at hp
    cases hf : getFileInfo s userId filePath with
    | none => rw [hf] at hp; exact absurd hp (by simp)
    | some f =>
      rw [hf] at hp
      have hp2 := Option.some.inj hp
      rw [← hp2]
      exact hinfo f hf
  · intro g hg
    unfold deleteFile at hg
    cases hfind : s.files.find? (fun f => f.user_id == userId && f.file_path == filePath) with
    | none => rw [hfind] at hg; exact hg
    | some f =>
      rw [hfind] at hg
      simp only at hg
      exact removeFirst_subset _ s.files g hg
  · intro g hg hgne
    cases hfind : s.files.find? (fun f => f.user_id == userId && f.file_path == filePath) with
    | none =>
      simp only [deleteFile, hfind]
      exact ⟨hg, fun b hb _ => hb, fun l hl _ => hl⟩
    | some f =>
      have hfmem : f ∈ s.files := List.mem_of_find?_eq_some hfind
      have hfu : f.user_id = userId := by
        have := List.find?_some hfind
        simp only [Bool.and_eq_true, beq_iff_eq] at this
        exact this.1
      have hgf : g ≠ f := by
        intro hcon
        rw [hcon] at hgne
        exact hgne hfu
      have hgid : g.id ≠ f.id := by
        intro hcon
        exact hgf (List.inj_on_of_nodup_map hfid hg hfmem hcon)
      simp only [deleteFile, hfind]
      refine ⟨?_, ?_, ?_⟩
      · refine mem_removeFirst _ s.files g hg ?_
        have : (g.user_id == userId) = false := by
          simp [hgne]
        simp [this]
      · intro b hb hbg
        refine List.mem_filter.mpr ⟨hb, ?_⟩
        have hne2 : (b.file_id == f.id) = false := by
          have hne3 : b.file_id ≠ f.id := by rw [hbg]; exact hgid
          simp [hne3]
        rw [hne2]
        rfl
      · intro l hl hbex
        obtain ⟨b, hb, hbl, hbg⟩ := hbex
        refine List.mem_filter.mpr ⟨hl, ?_⟩
        have hnc : ((s.blocks.filter (fun b2 => b2.file_id == f.id)).map
            (fun b2 => b2.block_id)).contains l.block_id = false := by
          rw [Bool.eq_false_iff]
          intro hcon
          have hcon2 := List.mem_of_elem_eq_true hcon
          obtain ⟨b2, hb2, hb2l⟩ := List.mem_map.mp hcon2
          obtain ⟨hb2m, hb2f⟩ := List.mem_filter.mp hb2
          have hb2f2 : b2.file_id = f.id := by simpa using hb2f
          have hbb2 : b = b2 := by
            refine List.inj_on_of_nodup_map hbid hb hb2m ?_
            rw [hbl, hb2l]
          rw [hbb2, hb2f2] at hbg
          exact hgid.symm hbg
        rw [hnc]
        rfl

/-- Witness for C10 at a store holding one file of principal 1 and one file
(with a block and a location) of principal 2, queried and deleted as
principal 1. -/
theorem metadata_operations_user_scoped_witness :
    (∀ fi, getFileInfo
        ⟨[⟨1, "a", "/a", 1, 5, "h"⟩, ⟨2, "b", "/b", 2, 5, "h"⟩], [⟨"b2", 2, 0, 5, "y"⟩],
          [⟨"b2", "dn", "active", "/p"⟩], [], []⟩ 1 "/a" = some fi → fi.user_id = 1) ∧
    (∀ fi ∈ listFiles
        ⟨[⟨1, "a", "/a", 1, 5, "h"⟩, ⟨2, "b", "/b", 2, 5, "h"⟩], [⟨"b2", 2, 0, 5, "y"⟩],
          [⟨"b2", "dn", "active", "/p"⟩], [], []⟩ 1 "/", fi.user_id = 1) ∧
    (∀ p, getDownloadPlan
        ⟨[⟨1, "a", "/a", 1, 5, "h"⟩, ⟨2, "b", "/b", 2, 5, "h"⟩], [⟨"b2", 2, 0, 5, "y"⟩],
          [⟨"b2", "dn", "active", "/p"⟩], [], []⟩ 1 "/a" = some p → p.file.user_id = 1) ∧
    (∀ g ∈ (deleteFile
        ⟨[⟨1, "a", "/a", 1, 5, "h"⟩, ⟨2, "b", "/b", 2, 5, "h"⟩], [⟨"b2", 2, 0, 5, "y"⟩],
          [⟨"b2", "dn", "active", "/p"⟩], [], []⟩ 1 "/a").2.files,
      g ∈ [(⟨1, "a", "/a", 1, 5, "h"⟩ : FileRec), ⟨2, "b", "/b", 2, 5, "h"⟩]) ∧
    (∀ g ∈ [(⟨1, "a", "/a", 1, 5, "h"⟩ : FileRec), ⟨2, "b", "/b", 2, 5, "h"⟩],
      g.user_id ≠ 1 →
      g ∈ (deleteFile
        ⟨[⟨1, "a", "/a", 1, 5, "h"⟩, ⟨2, "b", "/b", 2, 5, "h"⟩], [⟨"b2", 2, 0, 5, "y"⟩],
          [⟨"b2", "dn", "active", "/p"⟩], [], []⟩ 1 "/a").2.files ∧
      (∀ b ∈ [(⟨"b2", 2, 0, 5, "y"⟩ : BlockRec)], b.file_id = g.id →
        b ∈ (deleteFile
          ⟨[⟨1, "a", "/a", 1, 5, "h"⟩, ⟨2, "b", "/b", 2, 5, "h"⟩], [⟨"b2", 2, 0, 5, "y"⟩],
            [⟨"b2", "dn", "active", "/p"⟩], [], []⟩ 1 "/a").2.blocks) ∧
      (∀ l ∈ [(⟨"b2", "dn", "active", "/p"⟩ : LocationRec)],
        (∃ b ∈ [(⟨"b2", 2, 0, 5, "y"⟩ : BlockRec)], b.block_id = l.block_id ∧
          b.file_id = g.id) →
        l ∈ (deleteFile
          ⟨[⟨1, "a", "/a", 1, 5, "h"⟩, ⟨2, "b", "/b", 2, 5, "h"⟩], [⟨"b2", 2, 0, 5, "y"⟩],
            [⟨"b2", "dn", "active", "/p"⟩], [], []⟩ 1 "/a").2.locations)) :=
  metadata_operations_user_scoped
    ⟨[⟨1, "a", "/a", 1, 5, "h"⟩, ⟨2, "b", "/b", 2, 5, "h"⟩], [⟨"b2", 2, 0, 5, "y"⟩],
      [⟨"b2", "dn", "active", "/p"⟩], [], []⟩ 1 "/a" "/" (by decide) (by decide)

/- ======================= session-table lemmas ============================= -/

theorem updateFirst_cons_pos (p : α → Bool) (f : α → α) (x : α) (l : List α)
    (h : p x = true) : updateFirst p f (x :: l) = f x :: l := by
  simp [updateFirst, h]

theorem updateFirst_cons_neg (p : α → Bool) (f : α → α) (x : α) (l : List α)
    (h : p x = false) : updateFirst p f (x :: l) = x :: updateFirst p f l := by
  simp [updateFirst, h]

theorem sessionUpdateFn_self (cnt : Nat) (t : SessionRec)
    (hc : t.completed_blocks = cnt) (hs : ¬ cnt ≥ t.total_blocks) :
    sessionUpdateFn cnt t = t := by
  unfold sessionUpdateFn
  rw [if_neg hs, ← hc]

theorem pendingSessionMatch_update (u : Nat) (pth : String) (cnt : Nat) (t : SessionRec) :
    pendingSessionMatch u pth (sessionUpdateFn cnt t) =
      (t.file_path == pth && t.user_id == u &&
        ((if cnt ≥ t.total_blocks then "completed" else t.status) == "pending")) := rfl

theorem progress_idem (u : Nat) (pth : String) (cnt : Nat) :
    ∀ l : List SessionRec, (l.map (fun t => t.upload_id)).Nodup →
      List.Pairwise (fun t1 t2 => ¬(t1.user_id = t2.user_id ∧ t1.file_path = t2.file_path ∧
        t1.status = "pending" ∧ t2.status = "pending")) l →
      ∀ t0, l.find? (pendingSessionMatch u pth) = some t0 →
        ((updateFirst (fun t => t.upload_id == t0.upload_id) (sessionUpdateFn cnt) l).find?
            (pendingSessionMatch u pth) = none ∨
          ∃ t1,
            (updateFirst (fun t => t.upload_id == t0.upload_id) (sessionUpdateFn cnt) l).find?
              (pendingSessionMatch u pth) = some t1 ∧
            updateFirst (fun t => t.upload_id == t1.upload_id) (sessionUpdateFn cnt)
                (updateFirst (fun t => t.upload_id == t0.upload_id) (sessionUpdateFn cnt) l) =
              updateFirst (fun t => t.upload_id == t0.upload_id) (sessionUpdateFn cnt) l) := by
  intro l
  induction l with
  | nil => intro _ _ t0 hfind; exact absurd hfind (by simp)
  | cons x xs ih =>
    intro hnod hpair t0 hfind
    rw [List.map_cons, List.nodup_cons] at hnod
    obtain ⟨hnodx, hnodxs⟩ := hnod
    have hpairx := (List.pairwise_cons.mp hpair).1
    have hpairxs := (List.pairwise_cons.mp hpair).2
    cases hpx : pendingSessionMatch u pth x with
    | true =>
      have ht0 : t0 = x := by
        rw [List.find?_cons_of_pos _ hpx] at hfind
        exact (Option.some.inj hfind).symm
      subst ht0
      have hhead : (t0.upload_id == t0.upload_id) = true := by simp
      rw [updateFirst_cons_pos (fun t => t.upload_id == t0.upload_id) (sessionUpdateFn cnt) t0 xs hhead]
      have hfields : t0.file_path = pth ∧ t0.user_id = u ∧ t0.status = "pending" := by
        have := hpx
        unfold pendingSessionMatch at this
        simp only [Bool.and_eq_true, beq_iff_eq] at this
        exact ⟨this.1.1, this.1.2, this.2⟩
      by_cases hc : cnt ≥ t0.total_blocks
      · left
        have hpx2 : pendingSessionMatch u pth (sessionUpdateFn cnt t0) = false := by
          rw [pendingSessionMatch_update, if_pos hc]
          simp
        rw [List.find?_cons_of_neg _ (by simp [hpx2])]
        rw [List.find?_eq_none]
        intro y hy
        intro hpy
        have hyf : y.file_path = pth ∧ y.user_id = u ∧ y.status = "pending" := by
          unfold pendingSessionMatch at hpy
          simp only [Bool.and_eq_true, beq_iff_eq] at hpy
          exact ⟨hpy.1.1, hpy.1.2, hpy.2⟩
        exact hpairx y hy
          ⟨hfields.2.1.trans hyf.2.1.symm, hfields.1.trans hyf.1.symm,
            hfields.2.2, hyf.2.2⟩
      · right
        have hpx2 : pendingSessionMatch u pth (sessionUpdateFn cnt t0) = true := by
          rw [pendingSessionMatch_update, if_neg hc]
          exact hpx
        refine ⟨sessionUpdateFn cnt t0, List.find?_cons_of_pos _ hpx2, ?_⟩
        have hhead2 : ((sessionUpdateFn cnt t0).upload_id ==
            (sessionUpdateFn cnt t0).upload_id) = true := by simp
        rw [updateFirst_cons_pos (fun t => t.upload_id == (sessionUpdateFn cnt t0).upload_id)
          (sessionUpdateFn cnt) (sessionUpdateFn cnt t0) xs hhead2]
        have hidem : sessionUpdateFn cnt (sessionUpdateFn cnt t0) = sessionUpdateFn cnt t0 := by
          refine sessionUpdateFn_self cnt _ rfl ?_
          show ¬ cnt ≥ (sessionUpdateFn cnt t0).total_blocks
          exact hc
        rw [hidem]
    | false =>
      rw [List.find?_cons_of_neg _ (by simp [hpx])] at hfind
      have ht0mem : t0 ∈ xs := List.mem_of_find?_eq_some hfind
      have hne : (x.upload_id == t0.upload_id) = false := by
        have : x.upload_id ≠ t0.upload_id := by
          intro hcon
          exact hnodx (hcon ▸ List.mem_map_of_mem (fun t => t.upload_id) ht0mem)
        simp [this]
      rw [updateFirst_cons_neg (fun t => t.upload_id == t0.upload_id) (sessionUpdateFn cnt) x xs hne]
      rcases ih hnodxs hpairxs t0 hfind with h | ⟨t1, hf1, hidem⟩
      · left
        rw [List.find?_cons_of_neg _ (by simp [hpx])]
        exact h
      · right
        refine ⟨t1, ?_, ?_⟩
        · rw [List.find?_cons_of_neg _ (by simp [hpx])]
          exact hf1
        · have ht1mem : t1 ∈ updateFirst (fun t => t.upload_id == t0.upload_id)
              (sessionUpdateFn cnt) xs := List.mem_of_find?_eq_some hf1
          have ht1uid : t1.upload_id ∈
              (updateFirst (fun t => t.upload_id == t0.upload_id)
                (sessionUpdateFn cnt) xs).map (fun t => t.upload_id) :=
            List.mem_map_of_mem (fun t => t.upload_id) ht1mem
          have hmapeq : (updateFirst (fun t => t.upload_id == t0.upload_id)
              (sessionUpdateFn cnt) xs).map (fun t => t.upload_id) =
              xs.map (fun t => t.upload_id) :=
            updateFirst_map_eq (fun t => t.upload_id == t0.upload_id) (sessionUpdateFn cnt)
              (fun t => t.upload_id) (fun t => rfl) xs
          have hne1 : (x.upload_id == t1.upload_id) = false := by
            have : x.upload_id ≠ t1.upload_id := by
              intro hcon
              rw [hmapeq] at ht1uid
              exact hnodx (hcon ▸ ht1uid)
            simp [this]
          rw [updateFirst_cons_neg (fun t => t.upload_id == t1.upload_id) (sessionUpdateFn cnt) x
            (updateFirst (fun t => t.upload_id == t0.upload_id) (sessionUpdateFn cnt) xs) hne1]
          rw [hidem]

theorem handle_success_idem_aux (c : ConfirmationMsg) (hst : (c.status == "success") = true)
    (s1 : GridState)
    (hnod : (s1.sessions.map (fun t => t.upload_id)).Nodup)
    (hpend : List.Pairwise (fun t1 t2 => ¬(t1.user_id = t2.user_id ∧
        t1.file_path = t2.file_path ∧ t1.status = "pending" ∧ t2.status = "pending"))
      s1.sessions)
    (hany : s1.locations.any
      (fun l => l.block_id == c.block_id && l.datanode_id == c.datanode_id) = true) :
    handleStorageConfirmation (updateUploadProgressFromBlock s1 c.block_id) c =
      updateUploadProgressFromBlock s1 c.block_id := by
  cases hbf : s1.blocks.find? (fun b => b.block_id == c.block_id) with
  | none =>
    have h1 : updateUploadProgressFromBlock s1 c.block_id = s1 := by
      unfold updateUploadProgressFromBlock
      simp only [hbf]
    rw [h1]
    unfold handleStorageConfirmation
    rw [if_pos hst, if_pos hany]
    exact h1
  | some b =>
    cases hff : s1.files.find? (fun f => f.id == b.file_id) with
    | none =>
      have h1 : updateUploadProgressFromBlock s1 c.block_id = s1 := by
        unfold updateUploadProgressFromBlock
        simp only [hbf, hff]
      rw [h1]
      unfold handleStorageConfirmation
      rw [if_pos hst, if_pos hany]
      exact h1
    | some f =>
      cases hsf : s1.sessions.find? (pendingSessionMatch f.user_id f.file_path) with
      | none =>
        have h1 : updateUploadProgressFromBlock s1 c.block_id = s1 := by
          unfold updateUploadProgressFromBlock
          simp only [hbf, hff, hsf]
        rw [h1]
        unfold handleStorageConfirmation
        rw [if_pos hst, if_pos hany]
        exact h1
      | some t0 =>
        have ht0mem : t0 ∈ s1.sessions := List.mem_of_find?_eq_some hsf
        cases hu : s1.sessions.find? (fun t => t.upload_id == t0.upload_id) with
        | none =>
          exfalso
          rw [List.find?_eq_none] at hu
          exact hu t0 ht0mem (by simp)
        | some ta =>
          have hs2 : updateUploadProgressFromBlock s1 c.block_id =
              { s1 with
                sessions :=
                  updateFirst (fun t => t.upload_id == t0.upload_id)
                    (sessionUpdateFn (countConfirmedLocations s1 f.id)) s1.sessions } := by
            unfold updateUploadProgressFromBlock
            simp only [hbf, hff, hsf]
            unfold updateUploadProgress
            simp only [hu]
          rw [hs2]
          unfold handleStorageConfirmation
          rw [if_pos hst]
          have hany2 : (({ s1 with
              sessions :=
                updateFirst (fun t => t.upload_id == t0.upload_id)
                  (sessionUpdateFn (countConfirmedLocations s1 f.id)) s1.sessions } :
              GridState)).locations.any
              (fun l => l.block_id == c.block_id && l.datanode_id == c.datanode_id) = true :=
            hany
          rw [if_pos hany2]
          show updateUploadProgressFromBlock
              ({ s1 with
                sessions :=
                  updateFirst (fun t => t.upload_id == t0.upload_id)
                    (sessionUpdateFn (countConfirmedLocations s1 f.id)) s1.sessions })
              c.block_id =
            { s1 with
              sessions :=
                updateFirst (fun t => t.upload_id == t0.upload_id)
                  (sessionUpdateFn (countConfirmedLocations s1 f.id)) s1.sessions }
          have hbf2 : (({ s1 with
              sessions :=
                updateFirst (fun t => t.upload_id == t0.upload_id)
                  (sessionUpdateFn (countConfirmedLocations s1 f.id)) s1.sessions } :
              GridState)).blocks.find? (fun b2 => b2.block_id == c.block_id) = some b := hbf
          have hff2 : (({ s1 with
              sessions :=
                updateFirst (fun t => t.upload_id == t0.upload_id)
                  (sessionUpdateFn (countConfirmedLocations s1 f.id)) s1.sessions } :
              GridState)).files.find? (fun f2 => f2.id == b.file_id) = some f := hff
          unfold updateUploadProgressFromBlock
          simp only [hbf2, hff2]
          rcases progress_idem f.user_id f.file_path (countConfirmedLocations s1 f.id)
              s1.sessions hnod hpend t0 hsf with hnone | ⟨t1, hf1, hidem⟩
          · have hsf2 : (({ s1 with
                sessions :=
                  updateFirst (fun t => t.upload_id == t0.upload_id)
                    (sessionUpdateFn (countConfirmedLocations s1 f.id)) s1.sessions } :
                GridState)).sessions.find? (pendingSessionMatch f.user_id f.file_path) =
                none := hnone
            simp only [hsf2]
          · have hsf2 : (({ s1 with
                sessions :=
                  updateFirst (fun t => t.upload_id == t0.upload_id)
                    (sessionUpdateFn (countConfirmedLocations s1 f.id)) s1.sessions } :
                GridState)).sessions.find? (pendingSessionMatch f.user_id f.file_path) =
                some t1 := hf1
            simp only [hsf2]
            unfold updateUploadProgress
            have ht1mem : t1 ∈ updateFirst (fun t => t.upload_id == t0.upload_id)
                (sessionUpdateFn (countConfirmedLocations s1 f.id)) s1.sessions :=
              List.mem_of_find?_eq_some hf1
            cases hu2 : (updateFirst (fun t => t.upload_id == t0.upload_id)
                (sessionUpdateFn (countConfirmedLocations s1 f.id)) s1.sessions).find?
                (fun t => t.upload_id == t1.upload_id) with
            | none =>
              exfalso
              rw [List.find?_eq_none] at hu2
              exact hu2 t1 ht1mem (by simp)
            | some tb =>
              have hu2b : (({ s1 with
                  sessions :=
                    updateFirst (fun t => t.upload_id == t0.upload_id)
                      (sessionUpdateFn (countConfirmedLocations s1 f.id)) s1.sessions } :
                  GridState)).sessions.find? (fun t => t.upload_id == t1.upload_id) =
                  some tb := hu2
              simp only [hu2b]
              have hcnt : countConfirmedLocations
                  ({ s1 with
                    sessions :=
                      updateFirst (fun t => t.upload_id == t0.upload_id)
                        (sessionUpdateFn (countConfirmedLocations s1 f.id)) s1.sessions })
                  f.id = countConfirmedLocations s1 f.id := rfl
              rw [hcnt, hidem]

theorem upfb_locations (x : GridState) (bid : String) :
    (updateUploadProgressFromBlock x bid).locations = x.locations := by
  unfold updateUploadProgressFromBlock
  cases h1 : x.blocks.find? (fun b => b.block_id == bid) with
  | none => simp only [h1]
  | some b =>
    cases h2 : x.files.find? (fun f => f.id == b.file_id) with
    | none => simp only [h1, h2]
    | some f =>
      cases h3 : x.sessions.find? (pendingSessionMatch f.user_id f.file_path) with
      | none => simp only [h1, h2, h3]
      | some t0 =>
        simp only [h1, h2, h3]
        unfold updateUploadProgress
        cases h4 : x.sessions.find? (fun t => t.upload_id == t0.upload_id) with
        | none => simp only [h4]
        | some ta => simp only [h4]

theorem handle_locations_preserved (x : GridState) (c : ConfirmationMsg)
    (hx : x.locations.any
      (fun l => l.block_id == c.block_id && l.datanode_id == c.datanode_id) = true) :
    (handleStorageConfirmation x c).locations = x.locations := by
  by_cases hst : (c.status == "success") = true
  · have h1 : handleStorageConfirmation x c = updateUploadProgressFromBlock x c.block_id := by
      unfold handleStorageConfirmation
      rw [if_pos hst, if_pos hx]
    rw [h1]
    exact upfb_locations x c.block_id
  · have h1 : handleStorageConfirmation x c = x := by
      unfold handleStorageConfirmation
      rw [if_neg hst]
    rw [h1]

/-- C7 counterexample — replay of an already-processed `storage_confirmed`
message is not idempotent when two sessions for the same
`(principal, path)` are pending at once, a state reachable by: an upload of
`/f` (one block) whose confirmation never arrives, a delete of `/f`
(removing the File, Blocks and Locations but leaving the session), a
re-upload of `/f` with two fresh blocks, then the first confirmation of the
re-upload delivered twice. The first delivery completes the stale session
`u1`; the replay then finds the *second* pending session `u2` and
overwrites its `completed_blocks`, changing the metadata store. -/
theorem storage_confirmation_replay_nonidempotent_cex :
    (handleStorageConfirmation
        ⟨[⟨2, "f", "/f", 1, 10, "fh2"⟩],
          [⟨"b2", 2, 0, 5, "h2"⟩, ⟨"b3", 2, 1, 5, "h3"⟩], [], [],
          [⟨"u1", 1, "/f", 1, 0, "pending"⟩, ⟨"u2", 1, "/f", 2, 0, "pending"⟩]⟩
        ⟨"b2", "dn1", "/p", "success"⟩).sessions.map
      (fun t => (t.upload_id, t.completed_blocks, t.status)) =
      [("u1", 1, "completed"), ("u2", 0, "pending")] ∧
    (handleStorageConfirmation
        (handleStorageConfirmation
          ⟨[⟨2, "f", "/f", 1, 10, "fh2"⟩],
            [⟨"b2", 2, 0, 5, "h2"⟩, ⟨"b3", 2, 1, 5, "h3"⟩], [], [],
            [⟨"u1", 1, "/f", 1, 0, "pending"⟩, ⟨"u2", 1, "/f", 2, 0, "pending"⟩]⟩
          ⟨"b2", "dn1", "/p", "success"⟩)
        ⟨"b2", "dn1", "/p", "success"⟩).sessions.map
      (fun t => (t.upload_id, t.completed_blocks, t.status)) =
      [("u1", 1, "completed"), ("u2", 1, "pending")] ∧
    handleStorageConfirmation
        (handleStorageConfirmation
          ⟨[⟨2, "f", "/f", 1, 10, "fh2"⟩],
            [⟨"b2", 2, 0, 5, "h2"⟩, ⟨"b3", 2, 1, 5, "h3"⟩], [], [],
            [⟨"u1", 1, "/f", 1, 0, "pending"⟩, ⟨"u2", 1, "/f", 2, 0, "pending"⟩]⟩
          ⟨"b2", "dn1", "/p", "success"⟩)
        ⟨"b2", "dn1", "/p", "success"⟩ ≠
      handleStorageConfirmation
        ⟨[⟨2, "f", "/f", 1, 10, "fh2"⟩],
          [⟨"b2", 2, 0, 5, "h2"⟩, ⟨"b3", 2, 1, 5, "h3"⟩], [], [],
          [⟨"u1", 1, "/f", 1, 0, "pending"⟩, ⟨"u2", 1, "/f", 2, 0, "pending"⟩]⟩
        ⟨"b2", "dn1", "/p", "success"⟩ := by
  decide

/-- C7 (amended) — re-delivering an already-processed `storage_confirmed`
message never creates a second Location row for the `(block_id, node_id)`
pair: the Location table is unconditionally unchanged by the replay. The
whole metadata store is unchanged — in particular `completed_blocks` keeps
its value — provided no two sessions for the same `(principal, path)` are
simultaneously pending (with the database's unique `upload_id` constraint);
in the delete-and-re-upload state with a stale pending session the replay
instead mutates the second pending session. -/
theorem storage_confirmation_replay (s : GridState) (c : ConfirmationMsg) :
    (handleStorageConfirmation (handleStorageConfirmation s c) c).locations =
      (handleStorageConfirmation s c).locations ∧
    ((s.sessions.map (fun t => t.upload_id)).Nodup →
      List.Pairwise (fun t1 t2 => ¬(t1.user_id = t2.user_id ∧
          t1.file_path = t2.file_path ∧ t1.status = "pending" ∧ t2.status = "pending"))
        s.sessions →
      handleStorageConfirmation (handleStorageConfirmation s c) c =
        handleStorageConfirmation s c) := by
  constructor
  · by_cases hst : (c.status == "success") = true
    · have hred : handleStorageConfirmation s c =
          updateUploadProgressFromBlock
            (if s.locations.any (fun l => l.block_id == c.block_id &&
                l.datanode_id == c.datanode_id) then s
              else { s with locations := s.locations ++
                [{ block_id := c.block_id, datanode_id := c.datanode_id,
                   status := "active", storage_path := c.storage_path }] }) c.block_id := by
        unfold handleStorageConfirmation
        rw [if_pos hst]
      have hanyx : (handleStorageConfirmation s c).locations.any
          (fun l => l.block_id == c.block_id && l.datanode_id == c.datanode_id) = true := by
        rw [hred, upfb_locations]
        by_cases hany : s.locations.any
            (fun l => l.block_id == c.block_id && l.datanode_id == c.datanode_id) = true
        · rw [if_pos hany]
          exact hany
        · rw [if_neg (by rw [Bool.eq_false_iff.mpr hany]; simp)]
          show (s.locations ++
              [({ block_id := c.block_id, datanode_id := c.datanode_id,
                  status := "active", storage_path := c.storage_path } : LocationRec)]).any
            (fun l => l.block_id == c.block_id && l.datanode_id == c.datanode_id) = true
          rw [List.any_append]
          simp
      exact handle_locations_preserved (handleStorageConfirmation s c) c hanyx
    · have h1 : handleStorageConfirmation s c = s := by
        unfold handleStorageConfirmation
        rw [if_neg hst]
      rw [h1, h1]
  · intro hnod hpend
    by_cases hst : (c.status == "success") = true
    · have hred : handleStorageConfirmation s c =
          updateUploadProgressFromBlock
            (if s.locations.any (fun l => l.block_id == c.block_id &&
                l.datanode_id == c.datanode_id) then s
              else { s with locations := s.locations ++
                [{ block_id := c.block_id, datanode_id := c.datanode_id,
                   status := "active", storage_path := c.storage_path }] }) c.block_id := by
        unfold handleStorageConfirmation
        rw [if_pos hst]
      by_cases hany : s.locations.any
          (fun l => l.block_id == c.block_id && l.datanode_id == c.datanode_id) = true
      · rw [if_pos hany] at hred
        rw [hred]
        exact handle_success_idem_aux c hst s hnod hpend hany
      · have hany2 : s.locations.any
            (fun l => l.block_id == c.block_id && l.datanode_id == c.datanode_id) = false := by
          rw [Bool.eq_false_iff]
          exact hany
        rw [if_neg (by rw [hany2]; simp)] at hred
        rw [hred]
        refine handle_success_idem_aux c hst _ hnod hpend ?_
        show (s.locations ++
            [({ block_id := c.block_id, datanode_id := c.datanode_id,
                status := "active", storage_path := c.storage_path } : LocationRec)]).any
          (fun l => l.block_id == c.block_id && l.datanode_id == c.datanode_id) = true
        rw [List.any_append]
        simp
    · have h1 : handleStorageConfirmation s c = s := by
        unfold handleStorageConfirmation
        rw [if_neg hst]
      rw [h1, h1]

/-- Witness for C7: one file with one block, a single pending session, and a
duplicate `success` confirmation from the same node. -/
theorem storage_confirmation_replay_witness :
    (handleStorageConfirmation
        (handleStorageConfirmation
          ⟨[⟨1, "f", "/f", 1, 5, "fh"⟩], [⟨"b0", 1, 0, 5, "h0"⟩], [], [],
            [⟨"u1", 1, "/f", 1, 0, "pending"⟩]⟩
          ⟨"b0", "dn1", "/p0", "success"⟩)
        ⟨"b0", "dn1", "/p0", "success"⟩).locations =
      (handleStorageConfirmation
        ⟨[⟨1, "f", "/f", 1, 5, "fh"⟩], [⟨"b0", 1, 0, 5, "h0"⟩], [], [],
          [⟨"u1", 1, "/f", 1, 0, "pending"⟩]⟩
        ⟨"b0", "dn1", "/p0", "success"⟩).locations ∧
    handleStorageConfirmation
        (handleStorageConfirmation
          ⟨[⟨1, "f", "/f", 1, 5, "fh"⟩], [⟨"b0", 1, 0, 5, "h0"⟩], [], [],
            [⟨"u1", 1, "/f", 1, 0, "pending"⟩]⟩
          ⟨"b0", "dn1", "/p0", "success"⟩)
        ⟨"b0", "dn1", "/p0", "success"⟩ =
      handleStorageConfirmation
        ⟨[⟨1, "f", "/f", 1, 5, "fh"⟩], [⟨"b0", 1, 0, 5, "h0"⟩], [], [],
          [⟨"u1", 1, "/f", 1, 0, "pending"⟩]⟩
        ⟨"b0", "dn1", "/p0", "success"⟩ :=
  ⟨(storage_confirmation_replay
      ⟨[⟨1, "f", "/f", 1, 5, "fh"⟩], [⟨"b0", 1, 0, 5, "h0"⟩], [], [],
        [⟨"u1", 1, "/f", 1, 0, "pending"⟩]⟩
      ⟨"b0", "dn1", "/p0", "success"⟩).1,
    (storage_confirmation_replay
      ⟨[⟨1, "f", "/f", 1, 5, "fh"⟩], [⟨"b0", 1, 0, 5, "h0"⟩], [], [],
        [⟨"u1", 1, "/f", 1, 0, "pending"⟩]⟩
      ⟨"b0", "dn1", "/p0", "success"⟩).2 (by decide) (by decide)⟩

/- ======================= C1: confirmed-block counting ===================== -/

/-- C1 — the progress counter counts Location *rows*, not distinct
block-ids: in a two-block file, confirming block `b0` from `dn1` and then
from `dn2` drives `completed_blocks` to 2 and flips the session to
`completed`, although only one distinct block (of two) has any confirmed
active location. This exhibits the divergence between
`_update_upload_progress_from_block` (its comment says it counts confirmed
blocks) and invariant I5. -/
theorem completed_blocks_counts_duplicate_locations :
    (handleStorageConfirmation
        (handleStorageConfirmation
          ⟨[⟨1, "f", "/f", 1, 10, "fh"⟩],
            [⟨"b0", 1, 0, 5, "h0"⟩, ⟨"b1", 1, 1, 5, "h1"⟩], [], [],
            [⟨"u1", 1, "/f", 2, 0, "pending"⟩]⟩
          ⟨"b0", "dn1", "/p0", "success"⟩)
        ⟨"b0", "dn2", "/p1", "success"⟩).sessions.map
      (fun t => (t.completed_blocks, t.status)) = [(2, "completed")] ∧
    distinctConfirmedBlocks
      (handleStorageConfirmation
        (handleStorageConfirmation
          ⟨[⟨1, "f", "/f", 1, 10, "fh"⟩],
            [⟨"b0", 1, 0, 5, "h0"⟩, ⟨"b1", 1, 1, 5, "h1"⟩], [], [],
            [⟨"u1", 1, "/f", 2, 0, "pending"⟩]⟩
          ⟨"b0", "dn1", "/p0", "success"⟩)
        ⟨"b0", "dn2", "/p1", "success"⟩) 1 = 1 ∧
    (1 : Nat) ≠ 2 := by
  decide

/- ======================= C6: session monotonicity ========================= -/

theorem filter_length_le_append (p : α → Bool) (l : List α) (x : α) :
    (l.filter p).length ≤ ((l ++ [x]).filter p).length := by
  rw [List.filter_append, List.length_append]
  omega

/-- C6 counterexample — two violations of the claim at concrete states.
First, `mark_upload_failed` performs no status check: on a session already
in the terminal status `completed` it still flips the status to `failed`.
Second, `completed_blocks` reachably *decreases*: after an upload of `/f`
whose session stalled pending at `completed_blocks = 2`, a delete of `/f`
(which removes the File, Blocks and Locations but not the session) and a
re-upload of `/f` with two fresh blocks, the first confirmation for the new
upload is credited to the stale pending session — the location recount of
the new file yields 1 and overwrites the stale session's counter 2. -/
theorem session_monotonicity_cex :
    (markUploadFailed ⟨[], [], [], [], [⟨"u1", 1, "/f", 2, 2, "completed"⟩]⟩ "u1").sessions =
      [⟨"u1", 1, "/f", 2, 2, "failed"⟩] ∧
    (⟨[⟨2, "f", "/f", 1, 10, "fh2"⟩],
        [⟨"b2", 2, 0, 5, "h2"⟩, ⟨"b3", 2, 1, 5, "h3"⟩], [], [],
        [⟨"u1", 1, "/f", 3, 2, "pending"⟩, ⟨"u2", 1, "/f", 2, 0, "pending"⟩]⟩ :
      GridState).sessions.map (fun t => (t.upload_id, t.completed_blocks)) =
      [("u1", 2), ("u2", 0)] ∧
    (handleStorageConfirmation
        ⟨[⟨2, "f", "/f", 1, 10, "fh2"⟩],
          [⟨"b2", 2, 0, 5, "h2"⟩, ⟨"b3", 2, 1, 5, "h3"⟩], [], [],
          [⟨"u1", 1, "/f", 3, 2, "pending"⟩, ⟨"u2", 1, "/f", 2, 0, "pending"⟩]⟩
        ⟨"b2", "dn1", "/p", "success"⟩).sessions.map
      (fun t => (t.upload_id, t.completed_blocks)) = [("u1", 1), ("u2", 0)] ∧
    ¬ (2 : Nat) ≤ 1 := by
  decide

/-- C6 (amended) — given the database's unique `upload_id` constraint,
storage-confirmation processing modifies only pending sessions, and the
session it updates keeps its identity, owner, path and `total_blocks`,
moving its status only to `pending` or `completed` — never to `failed` and
never out of a terminal status. Its `completed_blocks`, however, is simply
overwritten with the owning file's current active-location row count, which
after a delete-and-re-upload of the same path over a stale pending session
reachably decreases. `mark_upload_failed` sets the matched session's status
to `failed` unconditionally, whatever status — including `completed` — it
currently has. -/
theorem session_status_discipline (s : GridState) (c : ConfirmationMsg) (uploadId : String)
    (hnod : (s.sessions.map (fun t => t.upload_id)).Nodup) :
    List.Forall₂ (fun t t2 : SessionRec =>
        t2 = t ∨ (t.status = "pending" ∧ t2.upload_id = t.upload_id ∧
          t2.user_id = t.user_id ∧ t2.file_path = t.file_path ∧
          t2.total_blocks = t.total_blocks ∧
          (t2.status = "pending" ∨ t2.status = "completed")))
      s.sessions (handleStorageConfirmation s c).sessions ∧
    List.Forall₂ (fun t t2 : SessionRec =>
        t2 = t ∨ (t.upload_id = uploadId ∧ t2 = { t with status := "failed" }))
      s.sessions (markUploadFailed s uploadId).sessions := by
  constructor
  · by_cases hst : (c.status == "success") = true
    · have main : ∀ s1 : GridState, s1.sessions = s.sessions →
          List.Forall₂ (fun t t2 : SessionRec =>
              t2 = t ∨ (t.status = "pending" ∧ t2.upload_id = t.upload_id ∧
                t2.user_id = t.user_id ∧ t2.file_path = t.file_path ∧
                t2.total_blocks = t.total_blocks ∧
                (t2.status = "pending" ∨ t2.status = "completed")))
            s.sessions (updateUploadProgressFromBlock s1 c.block_id).sessions := by
        intro s1 hsess
        cases hbf : s1.blocks.find? (fun b => b.block_id == c.block_id) with
        | none =>
          have h1 : (updateUploadProgressFromBlock s1 c.block_id).sessions = s.sessions := by
            unfold updateUploadProgressFromBlock
            simp only [hbf]
            exact hsess
          rw [h1]
          exact List.forall₂_same.mpr (fun t _ => Or.inl rfl)
        | some b =>
          cases hff : s1.files.find? (fun f => f.id == b.file_id) with
          | none =>
            have h1 : (updateUploadProgressFromBlock s1 c.block_id).sessions = s.sessions := by
              unfold updateUploadProgressFromBlock
              simp only [hbf, hff]
              exact hsess
            rw [h1]
            exact List.forall₂_same.mpr (fun t _ => Or.inl rfl)
          | some f =>
            cases hsf : s1.sessions.find? (pendingSessionMatch f.user_id f.file_path) with
            | none =>
              have h1 : (updateUploadProgressFromBlock s1 c.block_id).sessions = s.sessions := by
                unfold updateUploadProgressFromBlock
                simp only [hbf, hff, hsf]
                exact hsess
              rw [h1]
              exact List.forall₂_same.mpr (fun t _ => Or.inl rfl)
            | some t0 =>
              have ht0mem : t0 ∈ s.sessions := by
                have := List.mem_of_find?_eq_some hsf
                rw [hsess] at this
                exact this
              cases hu : s1.sessions.find? (fun t => t.upload_id == t0.upload_id) with
              | none =>
                exfalso
                rw [List.find?_eq_none] at hu
                have := List.mem_of_find?_eq_some hsf
                exact hu t0 this (by simp)
              | some ta =>
                have hres : (updateUploadProgressFromBlock s1 c.block_id).sessions =
                    updateFirst (fun t => t.upload_id == t0.upload_id)
                      (sessionUpdateFn (countConfirmedLocations s1 f.id)) s1.sessions := by
                  unfold updateUploadProgressFromBlock
                  simp only [hbf, hff, hsf]
                  unfold updateUploadProgress
                  simp only [hu]
                rw [hres, hsess]
                have hpm := List.find?_some hsf
                unfold pendingSessionMatch at hpm
                simp only [Bool.and_eq_true, beq_iff_eq] at hpm
                have hpend0 : t0.status = "pending" := hpm.2
                refine (updateFirst_forall2 _ _ s.sessions).imp ?_
                intro t t2 h
                rcases h with h | ⟨hmem, hp, hft⟩
                · exact Or.inl h
                · have htuid : t.upload_id = t0.upload_id := by simpa using hp
                  have hteq : t = t0 := List.inj_on_of_nodup_map hnod hmem ht0mem htuid
                  subst hteq
                  rw [hft]
                  refine Or.inr ⟨hpend0, rfl, rfl, rfl, rfl, ?_⟩
                  show (if countConfirmedLocations s1 f.id ≥ t.total_blocks then "completed"
                      else t.status) = "pending" ∨
                    (if countConfirmedLocations s1 f.id ≥ t.total_blocks then "completed"
                      else t.status) = "completed"
                  by_cases hc : countConfirmedLocations s1 f.id ≥ t.total_blocks
                  · right
                    rw [if_pos hc]
                  · left
                    rw [if_neg hc]
                    exact hpend0
      have hred : handleStorageConfirmation s c =
          updateUploadProgressFromBlock
            (if s.locations.any (fun l => l.block_id == c.block_id &&
                l.datanode_id == c.datanode_id) then s
              else { s with locations := s.locations ++
                [{ block_id := c.block_id, datanode_id := c.datanode_id,
                   status := "active", storage_path := c.storage_path }] }) c.block_id := by
        unfold handleStorageConfirmation
        rw [if_pos hst]
      rw [hred]
      by_cases hany : s.locations.any
          (fun l => l.block_id == c.block_id && l.datanode_id == c.datanode_id) = true
      · rw [if_pos hany]
        exact main s rfl
      · rw [if_neg (by rw [Bool.eq_false_iff.mpr hany]; simp)]
        exact main _ rfl
    · have h1 : handleStorageConfirmation s c = s := by
        unfold handleStorageConfirmation
        rw [if_neg hst]
      rw [h1]
      exact List.forall₂_same.mpr (fun t _ => Or.inl rfl)
  · unfold markUploadFailed
    cases hfind : s.sessions.find? (fun t => t.upload_id == uploadId) with
    | none =>
      simp only [hfind]
      exact List.forall₂_same.mpr (fun t _ => Or.inl rfl)
    | some t0 =>
      simp only [hfind]
      show List.Forall₂ _ s.sessions
        (updateFirst (fun t => t.upload_id == uploadId)
          (fun t => { t with status := "failed" }) s.sessions)
      refine (updateFirst_forall2 _ _ s.sessions).imp ?_
      intro t t2 h
      rcases h with h | ⟨hmem, hp, hft⟩
      · exact Or.inl h
      · exact Or.inr ⟨by simpa using hp, hft⟩

/-- Witness for C6 at a one-block file with a pending session, one `success`
confirmation, and one `mark_upload_failed` call. -/
theorem session_status_discipline_witness :
    List.Forall₂ (fun t t2 : SessionRec =>
        t2 = t ∨ (t.status = "pending" ∧ t2.upload_id = t.upload_id ∧
          t2.user_id = t.user_id ∧ t2.file_path = t.file_path ∧
          t2.total_blocks = t.total_blocks ∧
          (t2.status = "pending" ∨ t2.status = "completed")))
      [⟨"u1", 1, "/f", 1, 0, "pending"⟩]
      (handleStorageConfirmation
        ⟨[⟨1, "f", "/f", 1, 10, "fh"⟩], [⟨"b0", 1, 0, 5, "h0"⟩], [], [],
          [⟨"u1", 1, "/f", 1, 0, "pending"⟩]⟩
        ⟨"b0", "dn1", "/p", "success"⟩).sessions ∧
    List.Forall₂ (fun t t2 : SessionRec =>
        t2 = t ∨ (t.upload_id = "u1" ∧ t2 = { t with status := "failed" }))
      [⟨"u1", 1, "/f", 1, 0, "pending"⟩]
      (markUploadFailed
        ⟨[⟨1, "f", "/f", 1, 10, "fh"⟩], [⟨"b0", 1, 0, 5, "h0"⟩], [], [],
          [⟨"u1", 1, "/f", 1, 0, "pending"⟩]⟩ "u1").sessions :=
  session_status_discipline
    ⟨[⟨1, "f", "/f", 1, 10, "fh"⟩], [⟨"b0", 1, 0, 5, "h0"⟩], [], [],
      [⟨"u1", 1, "/f", 1, 0, "pending"⟩]⟩
    ⟨"b0", "dn1", "/p", "success"⟩ "u1" (by decide)

end GridDFS
